import Mathlib

/-!
Verification development for the RevOS repository.

The syllabus parsing, grading-editing and upload logic lives in
`revos-client/src/components/SyllabusUpload.tsx`; the Ask-Rev service
functions live in `revos-client/src/services/askrev.ts` and
`revos-client/src/components/AskRev.tsx`; the GPA helpers live in the
transcript-extraction service file.  Those TypeScript functions are embedded
below as executable Lean definitions.  JavaScript regular-expression
matching (leftmost scan, greedy/lazy quantifiers with backtracking,
alternation tried in order) is reproduced by small explicit backtracking
combinators over `List Char`.  Numbers that are JS `number`s are modelled as
`ℚ` (the claims under study do not depend on float rounding); character
classes follow the ECMAScript definitions of `\s`, `\w`, `\d`, `.` and
line terminators.
-/

/-- ECMAScript line terminators (`.` in a regex matches anything else). -/
def isLineTerm (c : Char) : Bool :=
  c = '\n' || c = '\r' || c.toNat = 0x2028 || c.toNat = 0x2029

/-- ECMAScript whitespace class `\s` (also the set removed by `String.prototype.trim`). -/
def isJsWS (c : Char) : Bool :=
  let n := c.toNat
  n = 9 || n = 10 || n = 11 || n = 12 || n = 13 || n = 32 || n = 0xA0 ||
  n = 0x1680 || (0x2000 ≤ n && n ≤ 0x200A) || n = 0x2028 || n = 0x2029 ||
  n = 0x202F || n = 0x205F || n = 0x3000 || n = 0xFEFF

/-- ECMAScript word class `\w`. -/
def isJsWord (c : Char) : Bool :=
  ('a' ≤ c && c ≤ 'z') || ('A' ≤ c && c ≤ 'Z') || ('0' ≤ c && c ≤ '9') || c = '_'

/-- ECMAScript digit class `\d`. -/
def isJsDigit (c : Char) : Bool := '0' ≤ c && c ≤ '9'

/-- `[A-Z]` under the `i` flag: any ASCII letter (non-ASCII characters do not
case-fold into `[A-Z]` without the `u` flag). -/
def isAsciiLetter (c : Char) : Bool :=
  ('a' ≤ c && c ≤ 'z') || ('A' ≤ c && c ≤ 'Z')

/-- JS `String.prototype.trim`. -/
def jsTrim (s : String) : String :=
  ((s.toList.dropWhile isJsWS).reverse.dropWhile isJsWS).reverse.asString

/-- JS `toLowerCase`, restricted to ASCII (all strings compared in the source are ASCII). -/
def jsToLower (s : String) : String := (s.toList.map Char.toLower).asString

/-- JS `toUpperCase`, restricted to ASCII. -/
def jsToUpper (s : String) : String := (s.toList.map Char.toUpper).asString

/-- Decimal value of a digit run (JS `parseInt` applied to a `\d+` capture). -/
def natOfDigits (ds : List Char) : Nat :=
  ds.foldl (fun n c => 10 * n + (c.toNat - 48)) 0

/-- JS `parseFloat`, restricted to the plain decimal forms the component can
receive from a `<input type="number">` field: optional leading whitespace,
optional sign, digits with an optional fractional part; trailing characters
are ignored; `none` models `NaN`. -/
def jsParseFloat (s : String) : Option ℚ :=
  let cs := s.toList.dropWhile isJsWS
  let signed : ℚ × List Char :=
    match cs with
    | c :: rest =>
      if c = '-' then (-1, rest) else if c = '+' then (1, rest) else (1, c :: rest)
    | [] => (1, [])
  let intPart := signed.2.takeWhile isJsDigit
  let afterInt := signed.2.dropWhile isJsDigit
  let fracPart : List Char :=
    match afterInt with
    | c :: rest => if c = '.' then rest.takeWhile isJsDigit else []
    | [] => []
  if intPart = [] && fracPart = [] then none
  else
    some (signed.1 * ((natOfDigits intPart : ℚ) +
      (natOfDigits fracPart : ℚ) / (10 ^ fracPart.length)))

/-! ### Backtracking regex combinators

Each combinator consumes characters from the front of the list and calls a
continuation on every candidate remainder in the order an ECMAScript
backtracking engine would, returning the first success. -/

/-- Try `k` on `cs.drop n` for each `n` in `ns` (in order). -/
def tryDrops (ns : List Nat) (cs : List Char) (k : List Char → Option α) : Option α :=
  match ns with
  | [] => none
  | n :: rest => (k (cs.drop n)).orElse fun _ => tryDrops rest cs k

/-- Greedy `p*`: longest run first, backtracking down to zero. -/
def starGreedy (p : Char → Bool) (cs : List Char) (k : List Char → Option α) : Option α :=
  tryDrops ((List.range' 0 ((cs.takeWhile p).length + 1)).reverse) cs k

/-- Greedy `p+`: longest run first, backtracking down to one. -/
def plusGreedy (p : Char → Bool) (cs : List Char) (k : List Char → Option α) : Option α :=
  let run := (cs.takeWhile p).length
  if run = 0 then none else tryDrops ((List.range' 1 run).reverse) cs k

/-- Greedy `p{lo,hi}`. -/
def repGreedy (p : Char → Bool) (lo hi : Nat) (cs : List Char) (k : List Char → Option α) :
    Option α :=
  let run := min hi (cs.takeWhile p).length
  if run < lo then none
  else tryDrops ((List.range' lo (run + 1 - lo)).reverse) cs k

/-- A literal character. -/
def litChar (c : Char) (cs : List Char) (k : List Char → Option α) : Option α :=
  match cs with
  | x :: rest => if x = c then k rest else none
  | [] => none

/-- Greedy optional literal `c?`. -/
def optChar (c : Char) (cs : List Char) (k : List Char → Option α) : Option α :=
  match cs with
  | x :: rest =>
    if x = c then (k rest).orElse fun _ => k (x :: rest) else k (x :: rest)
  | [] => k []

/-- Lazy `.*?`: try the continuation at the current position first, then
consume one non-line-terminator character and retry. -/
def lazyStar (k : List Char → Option α) : List Char → Option α
  | [] => k []
  | c :: rest =>
    (k (c :: rest)).orElse fun _ =>
      if isLineTerm c then none else lazyStar k rest

/-- Case-insensitive prefix test (ASCII keywords). -/
def ciStartsWith : List Char → List Char → Bool
  | [], _ => true
  | _ :: _, [] => false
  | k :: ks, c :: cs => (k.toLower = c.toLower) && ciStartsWith ks cs

/-- Alternation of literal keywords, tried in order, case-insensitively;
the continuation receives the keyword length and the remainder. -/
def tryKws (kws : List (List Char)) (cs : List Char) (k : Nat → List Char → Option α) :
    Option α :=
  match kws with
  | [] => none
  | kw :: rest =>
    (if ciStartsWith kw cs then k kw.length (cs.drop kw.length) else none).orElse
      fun _ => tryKws rest cs k

/-- Leftmost-match scan: try the pattern at every position, left to right. -/
def findFirst (pat : List Char → Option α) : List Char → Option α
  | [] => pat []
  | c :: rest => (pat (c :: rest)).orElse fun _ => findFirst pat rest

/-- Scan restricted to positions following a line terminator (the non-initial
anchors of `^` under the `m` flag). -/
def afterTermScan (pat : List Char → Option α) : List Char → Option α
  | [] => none
  | c :: rest =>
    if isLineTerm c then (pat rest).orElse fun _ => afterTermScan pat rest
    else afterTermScan pat rest

/-- `^`-anchored multiline scan: position 0, then after each line terminator. -/
def lineAnchorScan (pat : List Char → Option α) (cs : List Char) : Option α :=
  (pat cs).orElse fun _ => afterTermScan pat cs

/-- `matchAll` driver: find the leftmost match, emit `(fullMatch, payload)`,
resume after the match (all patterns used here match at least one
character, so fuel `length + 1` is never exhausted). -/
def scanAllAux (pat : List Char → Option (Nat × α)) : Nat → List Char → List (String × α)
  | 0, _ => []
  | fuel + 1, cs =>
    match pat cs with
    | some (len, v) => ((cs.take len).asString, v) :: scanAllAux pat fuel (cs.drop len)
    | none =>
      match cs with
      | [] => []
      | _ :: rest => scanAllAux pat fuel rest

/-- All matches of a pattern, in document order (JS `String.prototype.matchAll`). -/
def scanAll (pat : List Char → Option (Nat × α)) (cs : List Char) : List (String × α) :=
  scanAllAux pat (cs.length + 1) cs

/-- First index at which `sep` occurs as a sublist. -/
def subIndex (sep : List Char) : List Char → Option Nat
  | [] => if sep = [] then some 0 else none
  | c :: rest =>
    if sep.isPrefixOf (c :: rest) then some 0
    else (subIndex sep rest).map (· + 1)

/-- `full.split(sep)[0]`: the prefix before the first occurrence of `sep`. -/
def splitFirstDrop (full sep : String) : String :=
  match subIndex sep.toList full.toList with
  | some i => (full.toList.take i).asString
  | none => full

/-! ### The regexes of `parseSyllabusText` -/

/-- `/(?:kw1|kw2|...):\s*(.+)/i` applied at one position; returns capture 1. -/
def kwColonAt (kws : List (List Char)) (cs : List Char) : Option String :=
  tryKws kws cs fun _ r1 =>
    litChar ':' r1 fun r2 =>
      starGreedy isJsWS r2 fun r3 =>
        match r3 with
        | c :: _ =>
          if isLineTerm c then none
          else some ((r3.takeWhile (fun c => !isLineTerm c)).asString)
        | [] => none

/-- `/^([A-Z]{2,4}\s*\d{3}[A-Z]?:?\s*.+)/im` applied at one (line-start)
position; capture 1 is the whole match. -/
def courseCodeAt (cs : List Char) : Option String :=
  repGreedy isAsciiLetter 2 4 cs fun r1 =>
    starGreedy isJsWS r1 fun r2 =>
      repGreedy isJsDigit 3 3 r2 fun r3 =>
        repGreedy isAsciiLetter 0 1 r3 fun r4 =>
          optChar ':' r4 fun r5 =>
            starGreedy isJsWS r5 fun r6 =>
              let tailRun := r6.takeWhile (fun c => !isLineTerm c)
              if tailRun = [] then none
              else some ((cs.take (cs.length - r6.length + tailRun.length)).asString)

/-- `/(fall|spring|summer)\s*\d{4}/i` applied at one position; returns
capture 1 (the season as written). -/
def seasonYearAt (cs : List Char) : Option String :=
  tryKws ["fall".toList, "spring".toList, "summer".toList] cs fun kwLen r1 =>
    starGreedy isJsWS r1 fun r2 =>
      repGreedy isJsDigit 4 4 r2 fun _ =>
        some ((cs.take kwLen).asString)

/-- Date alternative `\w+\s+\d{1,2}(?:,\s*\d{4})?`; returns chars consumed. -/
def dateAlt1 (cs : List Char) : Option Nat :=
  (plusGreedy isJsWord cs fun r1 =>
    plusGreedy isJsWS r1 fun r2 =>
      repGreedy isJsDigit 1 2 r2 fun r3 =>
        (litChar ',' r3 fun r4 =>
          starGreedy isJsWS r4 fun r5 =>
            repGreedy isJsDigit 4 4 r5 fun r6 => some r6).orElse
          fun _ => some r3).map fun rest => cs.length - rest.length

/-- Date alternative `\d{1,2}\/\d{1,2}(?:\/\d{4})?`; returns chars consumed. -/
def dateAlt2 (cs : List Char) : Option Nat :=
  (repGreedy isJsDigit 1 2 cs fun r1 =>
    litChar '/' r1 fun r2 =>
      repGreedy isJsDigit 1 2 r2 fun r3 =>
        (litChar '/' r3 fun r4 =>
          repGreedy isJsDigit 4 4 r4 fun r5 => some r5).orElse
          fun _ => some r3).map fun rest => cs.length - rest.length

/-- The capturing date group (alternatives in source order). -/
def dateGroup (cs : List Char) : Option Nat :=
  (dateAlt1 cs).orElse fun _ => dateAlt2 cs

/-- `.*?(<date group>)`: lazy gap then the date; returns the remainder after
the whole match and the captured date text. -/
def lazyToDate : List Char → Option (List Char × String) :=
  lazyStar fun r => (dateGroup r).map fun n => (r.drop n, (r.take n).asString)

/-- `.*?(?:due|deadline).*?(<date group>)`. -/
def lazyToDueDate : List Char → Option (List Char × String) :=
  lazyStar fun r =>
    tryKws ["due".toList, "deadline".toList] r fun _ r2 => lazyToDate r2

/-- One of the three `datePatterns` regexes applied at one position; returns
the full-match length and the captured date. -/
def datePatAt (kws : List (List Char)) (needsDue : Bool) (cs : List Char) :
    Option (Nat × String) :=
  tryKws kws cs fun _ rest =>
    (if needsDue then lazyToDueDate rest else lazyToDate rest).map fun pr =>
      (cs.length - pr.1.length, pr.2)

/-- `/([^:\n]+):\s*(\d+)%/g` applied at one position; returns the full-match
length, capture 1 (category) and `parseInt` of capture 2 (weight). -/
def gradeAt (cs : List Char) : Option (Nat × String × Nat) :=
  plusGreedy (fun c => !(c = ':' || c = '\n')) cs fun r1 =>
    litChar ':' r1 fun r2 =>
      starGreedy isJsWS r2 fun r3 =>
        plusGreedy isJsDigit r3 fun r4 =>
          litChar '%' r4 fun r5 =>
            some (cs.length - r5.length,
              (cs.take (cs.length - r1.length)).asString,
              natOfDigits (r3.take (r3.length - r4.length)))

/-! ### Data model (`SyllabusData` of `SyllabusUpload.tsx`) -/

inductive DateKind
  | exam
  | assignment
  | project
  | other
deriving DecidableEq, Repr

structure KeyDate where
  date : String
  event : String
  type : DateKind
deriving DecidableEq, Repr

structure GradingItem where
  category : String
  weight : ℚ
deriving DecidableEq, Repr

structure SyllabusData where
  course : String
  instructor : String
  semester : String
  assignments : Option Nat := none
  exams : Option Nat := none
  projects : Option Nat := none
  keyDates : List KeyDate
  topics : List String
  gradingBreakdown : List GradingItem
  raw_text : String
  id : Option Nat := none
deriving DecidableEq, Repr

/-! ### `parseSyllabusText` -/

/-- Course extraction: `text.match(/(?:course|class):\s*(.+)/i) ||
text.match(/^([A-Z]{2,4}\s*\d{3}[A-Z]?:?\s*.+)/im)`, yielding `match[1]`. -/
def courseExtract (cs : List Char) : Option String :=
  (findFirst (kwColonAt ["course".toList, "class".toList]) cs).orElse fun _ =>
    lineAnchorScan courseCodeAt cs

/-- Instructor extraction: `text.match(/(?:instructor|professor|teacher):\s*(.+)/i)`. -/
def instructorExtract (cs : List Char) : Option String :=
  findFirst (kwColonAt ["instructor".toList, "professor".toList, "teacher".toList]) cs

/-- Semester extraction: `text.match(/(?:semester|term):\s*(.+)/i) ||
text.match(/(fall|spring|summer)\s*\d{4}/i)`, yielding
`semesterMatch[1] || semesterMatch[0]` (capture 1 is nonempty in both
regexes, so this is capture 1). -/
def semesterExtract (cs : List Char) : Option String :=
  (findFirst (kwColonAt ["semester".toList, "term".toList]) cs).orElse fun _ =>
    findFirst seasonYearAt cs

/-- All matches of `datePatterns[0]` (exam dates). -/
def examMatches (cs : List Char) : List (String × String) :=
  scanAll (datePatAt ["exam".toList, "test".toList, "quiz".toList] false) cs

/-- All matches of `datePatterns[1]` (assignment due dates). -/
def assignmentMatches (cs : List Char) : List (String × String) :=
  scanAll (datePatAt ["assignment".toList, "homework".toList, "hw".toList] true) cs

/-- All matches of `datePatterns[2]` (project due dates). -/
def projectMatches (cs : List Char) : List (String × String) :=
  scanAll (datePatAt ["project".toList] true) cs

/-- One key-date entry: `{date, event: fullMatch.split(date)[0].trim(), type}`. -/
def keyDateOf (kind : DateKind) (m : String × String) : KeyDate :=
  { date := m.2, event := jsTrim (splitFirstDrop m.1 m.2), type := kind }

/-- The `keyDates` array accumulated over the three patterns in order. -/
def keyDatesOf (cs : List Char) : List KeyDate :=
  (examMatches cs).map (keyDateOf DateKind.exam) ++
    (assignmentMatches cs).map (keyDateOf DateKind.assignment) ++
    (projectMatches cs).map (keyDateOf DateKind.project)

/-- The `gradingBreakdown` array: every `/([^:\n]+):\s*(\d+)%/g` match with
`0 < weight ≤ 100`, category trimmed. -/
def gradingOf (cs : List Char) : List GradingItem :=
  (scanAll gradeAt cs).filterMap fun m =>
    if 0 < m.2.2 && m.2.2 ≤ 100 then
      some { category := jsTrim m.2.1, weight := (m.2.2 : ℚ) }
    else none

/-- `parseSyllabusText` of `SyllabusUpload.tsx` (lines 187-256): regex field
extraction with placeholder defaults; `topics` is never populated. -/
def parseSyllabusText (text : String) : SyllabusData :=
  let cs := text.toList
  let course :=
    match courseExtract cs with
    | some cap => jsTrim cap
    | none => ""
  let instructor :=
    match instructorExtract cs with
    | some cap => jsTrim cap
    | none => ""
  let semester :=
    match semesterExtract cs with
    | some cap => cap
    | none => ""
  { course := if course = "" then "Unknown Course" else course
    instructor := if instructor = "" then "Unknown Instructor" else instructor
    semester := if semester = "" then "Unknown Semester" else semester
    keyDates := keyDatesOf cs
    topics := []
    gradingBreakdown := gradingOf cs
    raw_text := text }

/-! ### Grading-breakdown editing (`handleSaveGrade`, `handleAddGrade`,
`handleDeleteGrade` of `SyllabusUpload.tsx`) -/

/-- `handleSaveGrade`: rejects when the edit buffer is null, the category is
empty, or the weight is negative (`editingGradeValues.weight < 0` is the
only weight check); otherwise replaces the item at `index`. -/
def saveGrade (gb : List GradingItem) (index : Nat) (editingGradeValues : Option GradingItem) :
    List GradingItem :=
  match editingGradeValues with
  | none => gb
  | some v =>
    if v.category = "" || v.weight < 0 then gb
    else gb.set index v

/-- `handleAddGrade`: rejects an empty (after trim) category, an empty or
non-numeric weight string, or a parsed weight outside `[0, 100]`; otherwise
appends `{category, weight}` (category not trimmed). -/
def addGrade (gb : List GradingItem) (newGradeCategory newGradeWeight : String) :
    List GradingItem :=
  if jsTrim newGradeCategory = "" || newGradeWeight = "" then gb
  else
    match jsParseFloat newGradeWeight with
    | none => gb
    | some weight =>
      if weight < 0 || 100 < weight then gb
      else gb ++ [{ category := newGradeCategory, weight := weight }]

/-- `handleDeleteGrade`: on confirmation, removes the item at `index`
(`filter((_, i) => i !== index)`). -/
def deleteGrade (gb : List GradingItem) (index : Nat) (confirmed : Bool) :
    List GradingItem :=
  if confirmed then
    (gb.enum.filter fun p => p.1 ≠ index).map Prod.snd
  else gb

/-! ### Upload state machine (`SyllabusUpload.tsx`) -/

inductive UploadStage
  | upload
  | processing
  | complete
  | error
deriving DecidableEq, Repr

/-- A DOM `File` as far as the handler inspects it (`name`, `type`). -/
structure JsFile where
  name : String
  type : String
deriving DecidableEq, Repr

/-- The component state touched by the upload handlers. -/
structure UploadState where
  stage : UploadStage
  progress : Nat
  syllabusText : String
  parsedData : Option SyllabusData
  error : Option String
  uploadedFile : Option JsFile
  syllabusId : Option String
deriving DecidableEq, Repr

/-- Outcome of the `fetch`-based API upload call: the parsed success payload,
or the thrown error message (HTTP error or network/JSON failure). -/
inductive ApiResult
  | ok (data : SyllabusData)
  | err (message : String)
deriving DecidableEq, Repr

/-- `result.id ? String(result.id) : null` (`0` is falsy in JS). -/
def syllabusIdOf (data : SyllabusData) : Option String :=
  match data.id with
  | some n => if n = 0 then none else some (toString n)
  | none => none

/-- State fields written on the success path shared by both upload handlers. -/
def uploadSuccessState (s : UploadState) (data : SyllabusData) : UploadState :=
  { s with
    stage := UploadStage.complete
    progress := 100
    parsedData := some data
    uploadedFile := none
    syllabusText := ""
    error := none
    syllabusId := syllabusIdOf data }

/-- `handleTextUpload`: no-op on blank text; otherwise `processing`, then on
API success stores the result and completes, on a thrown error records the
message and enters the error stage (the progress-animation interval is not
modelled). -/
def handleTextUpload (s : UploadState) (api : ApiResult) : UploadState :=
  if jsTrim s.syllabusText = "" then s
  else
    match api with
    | ApiResult.ok data => uploadSuccessState s data
    | ApiResult.err e =>
      { s with stage := UploadStage.error, progress := 0, error := some e }

/-- `allowedTypes` of `handleFileUpload`. -/
def allowedTypes : List String :=
  ["application/pdf",
   "application/vnd.openxmlformats-officedocument.wordprocessingml.document",
   "application/msword",
   "text/plain"]

/-- `allowedExtensions` of `handleFileUpload`. -/
def allowedExtensions : List String := ["pdf", "docx", "doc", "txt"]

/-- JS `String.prototype.split` with a single-character separator. -/
def splitOnChar (sep : Char) : List Char → List (List Char)
  | [] => [[]]
  | c :: rest =>
    match splitOnChar sep rest with
    | [] => [[c]]
    | h :: t => if c = sep then [] :: h :: t else (c :: h) :: t

/-- `file.name.split('.').pop()?.toLowerCase()`. -/
def fileExtensionOf (name : String) : String :=
  jsToLower (((splitOnChar '.' name.toList).getLastD []).asString)

/-- The file-type check of `handleFileUpload` (MIME type in `allowedTypes`
or extension in `allowedExtensions`). -/
def fileTypeAllowed (f : JsFile) : Bool :=
  allowedTypes.contains f.type || allowedExtensions.contains (fileExtensionOf f.name)

/-- The message thrown on an unsupported file type. -/
def unsupportedFileMsg : String :=
  "Unsupported file type. Please upload a PDF, DOCX, or TXT file."

/-- `handleFileUpload`: result state paired with whether the upload request
was actually issued.  With no file available it only opens the file picker;
with a disallowed file it throws (caught into the error stage) before any
request; otherwise the request runs and its outcome is handled as in the
text path. -/
def handleFileUpload (s : UploadState) (file : Option JsFile) (api : ApiResult) :
    UploadState × Bool :=
  let s0 := { s with stage := UploadStage.processing, progress := 0, error := none }
  match file.orElse fun _ => s.uploadedFile with
  | none => (s0, false)
  | some f =>
    if ¬fileTypeAllowed f then
      ({ s0 with stage := UploadStage.error, error := some unsupportedFileMsg }, false)
    else
      match api with
      | ApiResult.ok data => (uploadSuccessState s0 data, true)
      | ApiResult.err e =>
        ({ s0 with stage := UploadStage.error, error := some e }, true)

/-! ### Ask-Rev service (`askrev.ts`, `AskRev.tsx`) -/

/-- Outcome of a `fetch` call as the service code observes it: parsed payload
on HTTP success, the HTTP failure (`statusText` / parsed error body), or a
thrown exception (network failure, JSON parse failure). -/
inductive FetchOutcome (α : Type)
  | ok (value : α)
  | httpError (info : Option String)
  | exn
deriving DecidableEq, Repr

/-- `AskRevService.getStudyTips`: the extracted tips on success (`data.tips
|| data`), `[]` from the catch-all on any failure. -/
def getStudyTips (o : FetchOutcome (List String)) : List String :=
  match o with
  | FetchOutcome.ok tips => tips
  | FetchOutcome.httpError _ => []
  | FetchOutcome.exn => []

/-- The general-question tail of `getSmartAIResponse` (`AskRev.tsx`): the
answer on success, an apology string built from `error.error || 'Unknown
error'` on an HTTP error, and a fixed fallback when the call throws. -/
def askQuestionResponse (o : FetchOutcome String) : String :=
  match o with
  | FetchOutcome.ok answer => answer
  | FetchOutcome.httpError info =>
    "I couldn\x27t process that right now: " ++
      (match info with
       | some m => if m = "" then "Unknown error" else m
       | none => "Unknown error")
  | FetchOutcome.exn => "Let me try a different approach..."

/-- One built-in campus recommendation (`askrev.ts`). -/
structure CampusRecommendation where
  id : String
  name : String
  category : String
  description : String
  location : String
  distance : String
  rating : ℚ
  hours : Option String := none
  website : Option String := none
  whyRecommended : String
deriving DecidableEq, Repr

/-- The `allRecommendations` literal of `getDefaultRecommendations`. -/
def allRecommendations : List CampusRecommendation :=
  [{ id := "1", name := "Memorial Student Center (MSC)", category := "explore",
     description := "Central hub for student activities, dining, and events",
     location := "Central Campus", distance := "Central", rating := 45 / 10,
     whyRecommended := "Great place to explore campus and meet people" },
   { id := "2", name := "The Aggie Food Court", category := "dining",
     description := "Multiple dining options in one convenient location",
     location := "MSC Building", distance := "Central", rating := 42 / 10,
     hours := some "6am - 10pm daily",
     whyRecommended := "Variety of cuisines and quick service" },
   { id := "3", name := "Evans Library", category := "study",
     description := "Main library with quiet study areas and collaborative spaces",
     location := "West Campus", distance := "0.3 miles", rating := 47 / 10,
     hours := some "7am - Midnight",
     whyRecommended := "Perfect for focused studying with excellent resources" },
   { id := "4", name := "Cushing Memorial Library and Archives", category := "study",
     description := "Specialized research library with unique collections",
     location := "Central Campus", distance := "0.2 miles", rating := 48 / 10,
     whyRecommended := "Excellent for research projects and quiet study" },
   { id := "5", name := "The Rec", category := "recreation",
     description := "State-of-the-art recreational facilities",
     location := "North Campus", distance := "0.5 miles", rating := 46 / 10,
     hours := some "6am - 10pm Mon-Fri, 8am - 8pm Sat-Sun",
     whyRecommended := "Great for stress relief and staying active" },
   { id := "6", name := "Northgate District", category := "explore",
     description := "Local restaurants, shops, and entertainment",
     location := "North of Campus", distance := "0.1 miles", rating := 44 / 10,
     whyRecommended := "Popular student hangout with diverse options" },
   { id := "7", name := "Café Eccell", category := "dining",
     description := "Cozy café with coffee, pastries, and sandwiches",
     location := "Evans Library", distance := "In Library", rating := 43 / 10,
     hours := some "7am - 6pm daily",
     whyRecommended := "Perfect for study breaks with great coffee" },
   { id := "8", name := "Academic Plaza", category := "study",
     description := "Outdoor study spaces and tutoring centers",
     location := "Central Campus", distance := "Central", rating := 45 / 10,
     whyRecommended := "Great for group study and tutoring" }]

/-- `AskRevService.getDefaultRecommendations`: the full literal list, or its
filter by exact category when one is given. -/
def getDefaultRecommendations (category : Option String) : List CampusRecommendation :=
  match category with
  | some c => allRecommendations.filter fun r => r.category = c
  | none => allRecommendations

/-- `AskRevService.getCampusRecommendations`: the fetched list on success,
the built-in defaults (filtered by the same category argument) from the
catch-all on any failure. -/
def getCampusRecommendations (category : Option String)
    (o : FetchOutcome (List CampusRecommendation)) : List CampusRecommendation :=
  match o with
  | FetchOutcome.ok recs => recs
  | FetchOutcome.httpError _ => getDefaultRecommendations category
  | FetchOutcome.exn => getDefaultRecommendations category

/-! ### GPA helpers (transcript extraction service) -/

/-- The `gradeMap` object literal of `gradeTGPA`. -/
def gradeMap : List (String × ℚ) :=
  [("A", 4), ("A-", 37 / 10), ("B+", 33 / 10), ("B", 3), ("B-", 27 / 10),
   ("C+", 23 / 10), ("C", 2), ("C-", 17 / 10), ("D+", 13 / 10), ("D", 1),
   ("F", 0)]

/-- `gradeTGPA`: `gradeMap[grade.toUpperCase()] || 0.0` (a missing key and
the falsy value `0.0` both yield `0.0`). -/
def gradeTGPA (grade : String) : ℚ :=
  match gradeMap.lookup (jsToUpper grade) with
  | some v => if v = 0 then 0 else v
  | none => 0

/-- A course row as `calculateGPA` consumes it. -/
structure TranscriptCourse where
  grade : String
  credits : ℚ
deriving DecidableEq, Repr

/-- Grade points accumulated by the first `reduce`. -/
def totalPointsOf (courses : List TranscriptCourse) : ℚ :=
  courses.foldl (fun sum c => sum + gradeTGPA c.grade * c.credits) 0

/-- Credits accumulated by the second `reduce`. -/
def totalCreditsOf (courses : List TranscriptCourse) : ℚ :=
  courses.foldl (fun sum c => sum + c.credits) 0

/-- `calculateGPA`: `0` on an empty list, otherwise
`totalCredits > 0 ? totalPoints / totalCredits : 0`. -/
def calculateGPA (courses : List TranscriptCourse) : ℚ :=
  if courses.length = 0 then 0
  else
    let totalPoints := totalPointsOf courses
    let totalCredits := totalCreditsOf courses
    if 0 < totalCredits then totalPoints / totalCredits else 0

/-! ### Knowledge Store -/

/-- Modelled from the spec: a stored knowledge chunk.  The server-side
Knowledge Store implementation (Flask + vector index) is not under `src/`;
§3 and §4.3 of the spec define a chunk as an (owning user id, course id,
chunk text, embedding) tuple.  The embedding is represented through the
similarity scoring below rather than as a stored vector. -/
structure KnowledgeChunk where
  owner : String
  courseId : String
  text : String
deriving DecidableEq, Repr

/-- Modelled from the spec: `upsert(ownerId, courseId, chunks)` embeds each
chunk and writes it tagged with `ownerId` and `courseId` (§4.3). -/
def ksUpsert (store : List KnowledgeChunk) (ownerId courseId : String)
    (chunks : List String) : List KnowledgeChunk :=
  store ++ chunks.map fun t => { owner := ownerId, courseId := courseId, text := t }

/-- Insert a chunk into a list sorted by descending similarity score. -/
def insertByScore (score : KnowledgeChunk → ℚ) (c : KnowledgeChunk) :
    List KnowledgeChunk → List KnowledgeChunk
  | [] => [c]
  | x :: xs =>
    if score x < score c then c :: x :: xs
    else x :: insertByScore score c xs

/-- Sort chunks by descending similarity score. -/
def sortByScore (score : KnowledgeChunk → ℚ) (l : List KnowledgeChunk) :
    List KnowledgeChunk :=
  l.foldr (insertByScore score) []

/-- Modelled from the spec: `query(ownerId, questionText, topK)` embeds the
question and performs a nearest-neighbour search *restricted to the given
ownerId* (pre-filter at the query layer, §4.3), returning the `topK`
highest-scoring chunks in descending score order.  `sim` abstracts the
composite of the embedding capability and the index's similarity measure. -/
def ksQuery (store : List KnowledgeChunk) (ownerId questionText : String)
    (topK : Nat) (sim : String → String → ℚ) : List KnowledgeChunk :=
  (sortByScore (fun c => sim questionText c.text)
    (store.filter fun c => c.owner = ownerId)).take topK

/-! ### Helper lemmas -/

/-- Membership is preserved (backwards) by score-ordered insertion. -/
theorem mem_insertByScore {score : KnowledgeChunk → ℚ} {c a : KnowledgeChunk} :
    ∀ {l : List KnowledgeChunk}, a ∈ insertByScore score c l → a = c ∨ a ∈ l := by
  intro l
  induction l with
  | nil =>
    intro h
    simp [insertByScore] at h
    exact Or.inl h
  | cons x xs ih =>
    intro h
    simp only [insertByScore] at h
    split_ifs at h
    · rcases List.mem_cons.mp h with h | h
      · exact Or.inl h
      · exact Or.inr h
    · rcases List.mem_cons.mp h with h | h
      · exact Or.inr (h ▸ List.mem_cons_self x xs)
      · rcases ih h with h | h
        · exact Or.inl h
        · exact Or.inr (List.mem_cons_of_mem x h)

/-- Sorting by score does not introduce new chunks. -/
theorem mem_sortByScore {score : KnowledgeChunk → ℚ} {a : KnowledgeChunk} :
    ∀ {l : List KnowledgeChunk}, a ∈ sortByScore score l → a ∈ l := by
  intro l
  induction l with
  | nil => intro h; simp [sortByScore] at h
  | cons x xs ih =>
    intro h
    rcases mem_insertByScore (l := sortByScore score xs) h with h | h
    · exact h ▸ List.mem_cons_self x xs
    · exact List.mem_cons_of_mem x (ih h)

/-- `handleAddGrade` leaves the breakdown unchanged when the parsed weight is
out of bounds. -/
theorem addGrade_rejects {gb : List GradingItem} {cat w : String} {q : ℚ}
    (hw : jsParseFloat w = some q) (hq : q < 0 ∨ 100 < q) : addGrade gb cat w = gb := by
  have hcond : (q < 0 || 100 < q) = true := by rcases hq with h | h <;> simp [h]
  simp only [addGrade, hw]
  split_ifs with h1 <;> simp [hcond]

/-- Anything in the result of `handleAddGrade` was already present or has
weight in `[0, 100]`. -/
theorem addGrade_mem {gb : List GradingItem} {cat w : String} {it : GradingItem}
    (h : it ∈ addGrade gb cat w) : it ∈ gb ∨ (0 ≤ it.weight ∧ it.weight ≤ 100) := by
  unfold addGrade at h
  split_ifs at h with h1
  · exact Or.inl h
  · cases hpf : jsParseFloat w with
    | none => rw [hpf] at h; exact Or.inl h
    | some q =>
      rw [hpf] at h
      have h3 : it ∈ (if q < 0 || 100 < q then gb
          else gb ++ [{ category := cat, weight := q }]) := h
      clear h
      split_ifs at h3 with h2
      · exact Or.inl h3
      · rcases List.mem_append.mp h3 with hl | hr
        · exact Or.inl hl
        · simp only [List.mem_singleton] at hr
          subst hr
          simp only [Bool.or_eq_true, decide_eq_true_eq, not_or] at h2
          exact Or.inr ⟨not_lt.mp h2.1, not_lt.mp h2.2⟩

/-- Anything in the result of `handleSaveGrade` was already present or is the
(validated, hence nonnegative-weight) edited item. -/
theorem saveGrade_mem {gb : List GradingItem} {i : Nat} {v : Option GradingItem}
    {it : GradingItem} (h : it ∈ saveGrade gb i v) :
    it ∈ gb ∨ (v = some it ∧ 0 ≤ it.weight) := by
  unfold saveGrade at h
  cases v with
  | none => exact Or.inl h
  | some x =>
    have h3 : it ∈ (if x.category = "" || x.weight < 0 then gb else gb.set i x) := h
    clear h
    split_ifs at h3 with h1
    · exact Or.inl h3
    · rcases List.mem_or_eq_of_mem_set h3 with hl | he
      · exact Or.inl hl
      · subst he
        refine Or.inr ⟨rfl, ?_⟩
        simp only [Bool.or_eq_true, decide_eq_true_eq, not_or] at h1
        exact not_lt.mp h1.2

/-- `handleDeleteGrade` only removes items. -/
theorem deleteGrade_mem {gb : List GradingItem} {i : Nat} {conf : Bool}
    {it : GradingItem} (h : it ∈ deleteGrade gb i conf) : it ∈ gb := by
  unfold deleteGrade at h
  split_ifs at h
  · rcases List.mem_map.mp h with ⟨p, hp, he⟩
    exact he ▸ List.snd_mem_of_mem_enum (List.mem_filter.mp hp).1
  · exact h

/-- Every weight produced by the grading regex pass lies in `[0, 100]`
(the filter keeps only `0 < weight ≤ 100`). -/
theorem gradingOf_bounds {cs : List Char} {it : GradingItem} (h : it ∈ gradingOf cs) :
    0 ≤ it.weight ∧ it.weight ≤ 100 := by
  unfold gradingOf at h
  rcases List.mem_filterMap.mp h with ⟨m, _, hm⟩
  split_ifs at hm with hcond
  · cases hm
    simp only [Bool.and_eq_true, decide_eq_true_eq] at hcond
    constructor
    · show (0 : ℚ) ≤ (m.2.2 : ℚ)
      positivity
    · show (m.2.2 : ℚ) ≤ 100
      exact_mod_cast hcond.2

/-- A successful association-list lookup produces a stored pair. -/
theorem lookup_mem : ∀ {l : List (String × ℚ)} {a : String} {b : ℚ},
    l.lookup a = some b → (a, b) ∈ l := by
  intro l
  induction l with
  | nil => intro a b h; simp [List.lookup] at h
  | cons p es ih =>
    intro a b h
    obtain ⟨k, v⟩ := p
    rw [List.lookup_cons] at h
    cases hk : a == k with
    | true =>
      rw [hk] at h
      simp only at h
      cases h
      have hak : a = k := by simpa using hk
      subst hak
      exact List.mem_cons_self _ _
    | false =>
      rw [hk] at h
      simp only at h
      exact List.mem_cons_of_mem _ (ih h)

/-- `gradeTGPA` always lands in `[0, 4]`. -/
theorem gradeTGPA_bounds (g : String) : 0 ≤ gradeTGPA g ∧ gradeTGPA g ≤ 4 := by
  unfold gradeTGPA
  cases h : gradeMap.lookup (jsToUpper g) with
  | none => norm_num
  | some v =>
    have hv : 0 ≤ v ∧ v ≤ 4 := by
      have hmem := lookup_mem h
      have hall : ∀ p ∈ gradeMap, 0 ≤ p.2 ∧ p.2 ≤ 4 := by
        intro p hp
        fin_cases hp <;> norm_num
      simpa using hall _ hmem
    show (0 ≤ if v = 0 then (0 : ℚ) else v) ∧ (if v = 0 then (0 : ℚ) else v) ≤ 4
    split_ifs with h0
    · norm_num
    · exact hv

/-- Step bound for the grade-points `reduce`. -/
theorem foldl_points_le :
    ∀ (l : List TranscriptCourse) (a b : ℚ), a ≤ 4 * b → (∀ c ∈ l, 0 ≤ c.credits) →
      l.foldl (fun sum c => sum + gradeTGPA c.grade * c.credits) a ≤
        4 * l.foldl (fun sum c => sum + c.credits) b := by
  intro l
  induction l with
  | nil => intro a b h _; simpa using h
  | cons c cs ih =>
    intro a b h hcred
    simp only [List.foldl_cons]
    apply ih
    · have h4 : gradeTGPA c.grade * c.credits ≤ 4 * c.credits :=
        mul_le_mul_of_nonneg_right (gradeTGPA_bounds c.grade).2
          (hcred c (List.mem_cons_self c cs))
      calc a + gradeTGPA c.grade * c.credits
          ≤ 4 * b + 4 * c.credits := add_le_add h h4
        _ = 4 * (b + c.credits) := by ring
    · exact fun x hx => hcred x (List.mem_cons_of_mem c hx)

/-- Nonnegativity of the grade-points `reduce`. -/
theorem foldl_points_nonneg :
    ∀ (l : List TranscriptCourse) (a : ℚ), 0 ≤ a → (∀ c ∈ l, 0 ≤ c.credits) →
      0 ≤ l.foldl (fun sum c => sum + gradeTGPA c.grade * c.credits) a := by
  intro l
  induction l with
  | nil => intro a h _; simpa using h
  | cons c cs ih =>
    intro a h hcred
    simp only [List.foldl_cons]
    apply ih
    · exact add_nonneg h
        (mul_nonneg (gradeTGPA_bounds c.grade).1 (hcred c (List.mem_cons_self c cs)))
    · exact fun x hx => hcred x (List.mem_cons_of_mem c hx)

/-! ### Claim theorems -/

/-- C1: for distinct owner ids `A ≠ B` and any question, any store holding
chunks of both owners, any `topK` and any similarity scoring, every chunk
returned by `query(A, q)` is owned by `A` and never by `B` — the owner
pre-filter makes isolation independent of how similar `B`'s chunks are. -/
theorem C1_query_ownership_isolation
    (store : List KnowledgeChunk) (A B q : String) (topK : Nat)
    (sim : String → String → ℚ) (c : KnowledgeChunk)
    (hAB : A ≠ B)
    (_hA : ∃ x ∈ store, x.owner = A)
    (_hB : ∃ y ∈ store, y.owner = B)
    (hc : c ∈ ksQuery store A q topK sim) :
    c.owner = A ∧ c.owner ≠ B := by
  have h1 : c ∈ sortByScore (fun ch => sim q ch.text)
      (store.filter fun ch => ch.owner = A) := List.mem_of_mem_take hc
  have h2 := mem_sortByScore h1
  have h3 : c.owner = A := by simpa using (List.mem_filter.mp h2).2
  exact ⟨h3, fun hB2 => hAB (h3.symm.trans hB2)⟩

def wChunkA : KnowledgeChunk := { owner := "A", courseId := "c1", text := "alpha midterm" }

def wChunkB : KnowledgeChunk := { owner := "B", courseId := "c1", text := "beta midterm" }

def wStore : List KnowledgeChunk := [wChunkA, wChunkB]

/-- A scoring that makes owner `B`'s chunk strictly more similar to the
question than owner `A`'s chunk. -/
def wSim : String → String → ℚ := fun _ t => if t = "beta midterm" then 1 else 0

theorem C1_query_ownership_isolation_witness :
    wChunkA.owner = "A" ∧ wChunkA.owner ≠ "B" :=
  C1_query_ownership_isolation wStore "A" "B" "when is my midterm" 2 wSim wChunkA
    (by decide) ⟨wChunkA, by decide, rfl⟩ ⟨wChunkB, by decide, rfl⟩ (by decide)

/-- C2 counterexample: the claim says an update whose single item is
`{category: "Exams", weight: 150}` is rejected with the stored breakdown
unchanged, for both grading-edit operations; but `handleSaveGrade` (which
only checks `weight < 0`) accepts it and stores the out-of-range weight. -/
theorem C2_counterexample_save_accepts_150 :
    saveGrade [{ category := "Exams", weight := 40 }] 0
        (some { category := "Exams", weight := 150 }) =
      [{ category := "Exams", weight := 150 }] ∧
    saveGrade [{ category := "Exams", weight := 40 }] 0
        (some { category := "Exams", weight := 150 }) ≠
      [{ category := "Exams", weight := 40 }] ∧
    ¬ ((150 : ℚ) ≤ 100) := by
  refine ⟨by decide, by decide, by norm_num⟩

/-- C2 (amended): `handleAddGrade` rejects any weight parsing outside
`[0, 100]` leaving the breakdown unchanged — in particular the weight string
"150" — and every item it accepts has weight in `[0, 100]`; `handleSaveGrade`
however validates only nonnegativity: an accepted edit guarantees only
`0 ≤ weight` for the stored item. -/
theorem C2_weight_bounds_amended :
    (∀ (gb : List GradingItem) (cat w : String) (q : ℚ),
      jsParseFloat w = some q → q < 0 ∨ 100 < q → addGrade gb cat w = gb) ∧
    (∀ (gb : List GradingItem) (cat w : String) (it : GradingItem),
      it ∈ addGrade gb cat w → it ∈ gb ∨ (0 ≤ it.weight ∧ it.weight ≤ 100)) ∧
    (∀ (gb : List GradingItem) (i : Nat) (v : Option GradingItem) (it : GradingItem),
      it ∈ saveGrade gb i v → it ∈ gb ∨ (v = some it ∧ 0 ≤ it.weight)) := by
  refine ⟨?_, ?_, ?_⟩
  · intro gb cat w q hw hq
    exact addGrade_rejects hw hq
  · intro gb cat w it h
    exact addGrade_mem h
  · intro gb i v it h
    exact saveGrade_mem h

theorem C2_weight_bounds_amended_witness :
    ({ category := "Exams", weight := 150 } : GradingItem) ∈
        [({ category := "Exams", weight := 40 } : GradingItem)] ∨
      (some ({ category := "Exams", weight := 150 } : GradingItem) =
          some ({ category := "Exams", weight := 150 } : GradingItem) ∧
        0 ≤ ({ category := "Exams", weight := 150 } : GradingItem).weight) :=
  C2_weight_bounds_amended.2.2 [{ category := "Exams", weight := 40 }] 0
    (some { category := "Exams", weight := 150 })
    { category := "Exams", weight := 150 } (by decide)

set_option maxRecDepth 100000 in
/-- C3 counterexample: the claim says every record reachable by parsing
followed by grading edits has all weights in `[0, 100]`; but parsing
"Exams: 40%" and then saving an edit of item 0 to weight 150 (accepted by
`handleSaveGrade`) yields a breakdown whose single weight is 150 > 100. -/
theorem C3_counterexample_edit_escapes_range :
    saveGrade (parseSyllabusText "Exams: 40%").gradingBreakdown 0
        (some { category := "Exams", weight := 150 }) =
      [{ category := "Exams", weight := 150 }] ∧
    ¬ ((150 : ℚ) ≤ 100) := by
  refine ⟨by decide, by norm_num⟩

set_option maxRecDepth 100000 in
/-- C3 (amended): parsing always produces weights in `[0, 100]`, and the
add and delete operations preserve that invariant; the save-edit operation
preserves only nonnegativity (weights above 100 can enter through it), and
no operation constrains the weights to sum to 100. -/
theorem C3_weight_invariant_amended :
    (∀ (text : String) (it : GradingItem),
      it ∈ (parseSyllabusText text).gradingBreakdown → 0 ≤ it.weight ∧ it.weight ≤ 100) ∧
    (∀ (gb : List GradingItem) (cat w : String),
      (∀ it ∈ gb, 0 ≤ it.weight ∧ it.weight ≤ 100) →
      ∀ it ∈ addGrade gb cat w, 0 ≤ it.weight ∧ it.weight ≤ 100) ∧
    (∀ (gb : List GradingItem) (i : Nat) (conf : Bool),
      (∀ it ∈ gb, 0 ≤ it.weight ∧ it.weight ≤ 100) →
      ∀ it ∈ deleteGrade gb i conf, 0 ≤ it.weight ∧ it.weight ≤ 100) ∧
    (∀ (gb : List GradingItem) (i : Nat) (v : Option GradingItem),
      (∀ it ∈ gb, 0 ≤ it.weight) →
      ∀ it ∈ saveGrade gb i v, 0 ≤ it.weight) ∧
    ((parseSyllabusText "Assignments: 40%").gradingBreakdown.map
      GradingItem.weight).sum ≠ 100 := by
  refine ⟨?_, ?_, ?_, ?_, ?_⟩
  · intro text it h
    have hg : (parseSyllabusText text).gradingBreakdown = gradingOf text.toList := rfl
    exact gradingOf_bounds (hg ▸ h)
  · intro gb cat w hinv it h
    rcases addGrade_mem h with h | h
    · exact hinv it h
    · exact h
  · intro gb i conf hinv it h
    exact hinv it (deleteGrade_mem h)
  · intro gb i v hinv it h
    rcases saveGrade_mem h with h | h
    · exact hinv it h
    · exact h.2
  · have h : (parseSyllabusText "Assignments: 40%").gradingBreakdown =
        [{ category := "Assignments", weight := 40 }] := by decide
    rw [h]
    norm_num [List.sum]

theorem C3_weight_invariant_amended_witness :
    0 ≤ ({ category := "Exams", weight := 40 } : GradingItem).weight ∧
    ({ category := "Exams", weight := 40 } : GradingItem).weight ≤ 100 :=
  C3_weight_invariant_amended.1 "Exams: 40%" { category := "Exams", weight := 40 }
    (by decide)

/-- The example raw syllabus text of the spec's scenario 1. -/
def c4text : String :=
  "Course: CSCE 314\nInstructor: Dr. Lee\nMidterm Exam: Oct 25\nAssignments: 40%\nExams: 40%\nProjects: 20%"

set_option maxRecDepth 100000 in
/-- C4: parsing the scenario-1 raw text yields course "CSCE 314", at least
one key date of category exam, and exactly three grading items whose
weights sum to 100. -/
theorem C4_example_scenario_parse :
    (parseSyllabusText c4text).course = "CSCE 314" ∧
    (∃ kd ∈ (parseSyllabusText c4text).keyDates, kd.type = DateKind.exam) ∧
    (parseSyllabusText c4text).gradingBreakdown.length = 3 ∧
    ((parseSyllabusText c4text).gradingBreakdown.map GradingItem.weight).sum = 100 := by
  have h : (parseSyllabusText c4text).gradingBreakdown =
      [{ category := "Assignments", weight := 40 },
       { category := "Exams", weight := 40 },
       { category := "Projects", weight := 20 }] := by decide
  refine ⟨by decide, by decide, ?_, ?_⟩
  · rw [h]
    rfl
  · rw [h]
    norm_num [List.sum]

/-- C5: the parser is a total function; when the input matches no course
pattern the course defaults to "Unknown Course" (likewise the other fields
default to their placeholders or to empty lists), and the raw text is kept. -/
theorem C5_parser_totality_and_defaults (text : String) :
    (courseExtract text.toList = none →
      (parseSyllabusText text).course = "Unknown Course") ∧
    (instructorExtract text.toList = none →
      (parseSyllabusText text).instructor = "Unknown Instructor") ∧
    (semesterExtract text.toList = none →
      (parseSyllabusText text).semester = "Unknown Semester") ∧
    (examMatches text.toList = [] → assignmentMatches text.toList = [] →
      projectMatches text.toList = [] → (parseSyllabusText text).keyDates = []) ∧
    (scanAll gradeAt text.toList = [] → (parseSyllabusText text).gradingBreakdown = []) ∧
    (parseSyllabusText text).topics = [] ∧
    (parseSyllabusText text).raw_text = text := by
  refine ⟨?_, ?_, ?_, ?_, ?_, rfl, rfl⟩
  · intro h
    simp only [String.toList] at h
    simp [parseSyllabusText, h]
  · intro h
    simp only [String.toList] at h
    simp [parseSyllabusText, h]
  · intro h
    simp only [String.toList] at h
    simp [parseSyllabusText, h]
  · intro h1 h2 h3
    simp only [String.toList] at h1 h2 h3
    have hk : (parseSyllabusText text).keyDates = keyDatesOf text.data := rfl
    rw [hk]
    simp [keyDatesOf, h1, h2, h3]
  · intro h
    simp only [String.toList] at h
    have hg : (parseSyllabusText text).gradingBreakdown = gradingOf text.data := rfl
    rw [hg]
    simp [gradingOf, h]

theorem C5_parser_totality_and_defaults_witness :
    (parseSyllabusText "hello").course = "Unknown Course" ∧
    (parseSyllabusText "hello").keyDates = [] ∧
    (parseSyllabusText "hello").gradingBreakdown = [] :=
  ⟨(C5_parser_totality_and_defaults "hello").1 (by decide),
   (C5_parser_totality_and_defaults "hello").2.2.2.1 (by decide) (by decide) (by decide),
   (C5_parser_totality_and_defaults "hello").2.2.2.2.1 (by decide)⟩

/-- C6: when theextraction API call fails, both upload handlers surface the
error (error stage, message recorded) and leave the stored parsed record and
syllabus id exactly as they were before the attempt. -/
theorem C6_upload_failure_preserves_record (s : UploadState) (e : String) (f : JsFile) :
    (jsTrim s.syllabusText ≠ "" →
      (handleTextUpload s (ApiResult.err e)).parsedData = s.parsedData ∧
      (handleTextUpload s (ApiResult.err e)).syllabusId = s.syllabusId ∧
      (handleTextUpload s (ApiResult.err e)).stage = UploadStage.error ∧
      (handleTextUpload s (ApiResult.err e)).error = some e) ∧
    (fileTypeAllowed f = true →
      (handleFileUpload s (some f) (ApiResult.err e)).1.parsedData = s.parsedData ∧
      (handleFileUpload s (some f) (ApiResult.err e)).1.syllabusId = s.syllabusId ∧
      (handleFileUpload s (some f) (ApiResult.err e)).1.stage = UploadStage.error ∧
      (handleFileUpload s (some f) (ApiResult.err e)).1.error = some e) := by
  constructor
  · intro h
    simp [handleTextUpload, h]
  · intro hf
    simp [handleFileUpload, Option.orElse, hf]

def wState : UploadState :=
  { stage := UploadStage.upload, progress := 0,
    syllabusText := "CSCE 314 syllabus raw text", parsedData := none,
    error := none, uploadedFile := none, syllabusId := none }

def wPdfFile : JsFile := { name := "syllabus.pdf", type := "application/pdf" }

theorem C6_upload_failure_preserves_record_witness :
    (handleTextUpload wState (ApiResult.err "ExtractionFailed")).parsedData =
      wState.parsedData ∧
    (handleTextUpload wState (ApiResult.err "ExtractionFailed")).syllabusId =
      wState.syllabusId ∧
    (handleFileUpload wState (some wPdfFile) (ApiResult.err "ExtractionFailed")).1.stage =
      UploadStage.error :=
  ⟨((C6_upload_failure_preserves_record wState "ExtractionFailed" wPdfFile).1
      (by decide)).1,
   ((C6_upload_failure_preserves_record wState "ExtractionFailed" wPdfFile).1
      (by decide)).2.1,
   ((C6_upload_failure_preserves_record wState "ExtractionFailed" wPdfFile).2
      (by decide)).2.2.1⟩

/-- C7: question-answering degrades instead of propagating failures — the
study-tips call returns `[]` on any HTTP or thrown failure, and the general
question path returns a fallback answer string in both failure modes. -/
theorem C7_question_failure_degrades (info : Option String) (m : String) :
    getStudyTips (FetchOutcome.httpError info) = [] ∧
    getStudyTips FetchOutcome.exn = [] ∧
    askQuestionResponse FetchOutcome.exn = "Let me try a different approach..." ∧
    (m ≠ "" → askQuestionResponse (FetchOutcome.httpError (some m)) =
      "I couldn\x27t process that right now: " ++ m) ∧
    askQuestionResponse (FetchOutcome.httpError none) =
      "I couldn\x27t process that right now: Unknown error" := by
  refine ⟨rfl, rfl, rfl, ?_, rfl⟩
  intro hm
  simp [askQuestionResponse, hm]

theorem C7_question_failure_degrades_witness :
    getStudyTips (FetchOutcome.httpError none) = [] ∧
    askQuestionResponse (FetchOutcome.httpError (some "Service unavailable")) =
      "I couldn\x27t process that right now: " ++ "Service unavailable" :=
  ⟨(C7_question_failure_degrades none "Service unavailable").1,
   (C7_question_failure_degrades none "Service unavailable").2.2.2.1 (by decide)⟩

/-- C8: a file whose MIME type and extension are both outside the allow
lists is rejected before any upload request (error stage with the
unsupported-file message, no API call); a file passing either check
proceeds to the upload request. -/
theorem C8_unsupported_file_type_rejected (s : UploadState) (f : JsFile)
    (api : ApiResult) :
    (fileTypeAllowed f = false →
      (handleFileUpload s (some f) api).2 = false ∧
      (handleFileUpload s (some f) api).1.stage = UploadStage.error ∧
      (handleFileUpload s (some f) api).1.error = some unsupportedFileMsg) ∧
    (fileTypeAllowed f = true → (handleFileUpload s (some f) api).2 = true) := by
  constructor
  · intro h
    simp [handleFileUpload, Option.orElse, h]
  · intro h
    cases api <;> simp [handleFileUpload, Option.orElse, h]

def wPngFile : JsFile := { name := "notes.png", type := "image/png" }

def wUpperPdfFile : JsFile := { name := "Syllabus.PDF", type := "application/octet-stream" }

theorem C8_unsupported_file_type_rejected_witness :
    (handleFileUpload wState (some wPngFile) (ApiResult.err "x")).2 = false ∧
    (handleFileUpload wState (some wPngFile) (ApiResult.err "x")).1.error =
      some unsupportedFileMsg ∧
    (handleFileUpload wState (some wUpperPdfFile) (ApiResult.err "x")).2 = true :=
  ⟨((C8_unsupported_file_type_rejected wState wPngFile (ApiResult.err "x")).1
      (by decide)).1,
   ((C8_unsupported_file_type_rejected wState wPngFile (ApiResult.err "x")).1
      (by decide)).2.2,
   (C8_unsupported_file_type_rejected wState wUpperPdfFile (ApiResult.err "x")).2
      (by decide)⟩

/-- C9: the GPA calculator is total with guarded division — `0` for an empty
list or non-positive total credits — and with nonnegative credits its result
lies in `[0, 4]`, because `gradeTGPA` maps every grade string into `[0, 4]`
with unknown grades going to `0`. -/
theorem C9_gpa_total_and_bounded :
    calculateGPA [] = 0 ∧
    (∀ courses, totalCreditsOf courses ≤ 0 → calculateGPA courses = 0) ∧
    (∀ courses, (∀ c ∈ courses, 0 ≤ c.credits) →
      0 ≤ calculateGPA courses ∧ calculateGPA courses ≤ 4) ∧
    (∀ g, 0 ≤ gradeTGPA g ∧ gradeTGPA g ≤ 4) ∧
    (∀ g, gradeMap.lookup (jsToUpper g) = none → gradeTGPA g = 0) := by
  refine ⟨rfl, ?_, ?_, gradeTGPA_bounds, ?_⟩
  · intro cs h
    unfold calculateGPA
    split_ifs with h1
    · rfl
    · show (if 0 < totalCreditsOf cs then totalPointsOf cs / totalCreditsOf cs else 0) = 0
      rw [if_neg (not_lt.mpr h)]
  · intro cs hc
    unfold calculateGPA
    split_ifs with h1
    · norm_num
    · show 0 ≤ (if 0 < totalCreditsOf cs then totalPointsOf cs / totalCreditsOf cs else 0) ∧
        (if 0 < totalCreditsOf cs then totalPointsOf cs / totalCreditsOf cs else 0) ≤ 4
      split_ifs with h2
      · have hnn : 0 ≤ totalPointsOf cs := foldl_points_nonneg cs 0 le_rfl hc
        have hle : totalPointsOf cs ≤ 4 * totalCreditsOf cs := by
          have := foldl_points_le cs 0 0 (by norm_num) hc
          simpa [totalPointsOf, totalCreditsOf] using this
        constructor
        · exact div_nonneg hnn (le_of_lt h2)
        · rw [div_le_iff₀ h2]
          linarith
      · norm_num
  · intro g h
    simp [gradeTGPA, h]

theorem C9_gpa_total_and_bounded_witness :
    0 ≤ calculateGPA [{ grade := "A", credits := 3 }, { grade := "B+", credits := 1 }] ∧
    calculateGPA [{ grade := "A", credits := 3 }, { grade := "B+", credits := 1 }] ≤ 4 :=
  C9_gpa_total_and_bounded.2.2.1
    [{ grade := "A", credits := 3 }, { grade := "B+", credits := 1 }]
    (by intro c hc; fin_cases hc <;> norm_num)

/-- C10: when the campus-recommendations call fails in any way, the service
returns the built-in default list (filtered by the requested category) instead
of throwing, and with a category argument every returned recommendation has
exactly that category. -/
theorem C10_recommendations_fallback (cat : String)
    (o : FetchOutcome (List CampusRecommendation)) (r : CampusRecommendation)
    (hfail : ∀ recs, o ≠ FetchOutcome.ok recs) :
    getCampusRecommendations (some cat) o = getDefaultRecommendations (some cat) ∧
    getCampusRecommendations none o = getDefaultRecommendations none ∧
    (r ∈ getCampusRecommendations (some cat) o → r.category = cat) := by
  cases o with
  | ok recs => exact absurd rfl (hfail recs)
  | httpError info =>
    refine ⟨rfl, rfl, fun hr => ?_⟩
    have h2 : r ∈ allRecommendations.filter (fun x => x.category = cat) := hr
    simpa using (List.mem_filter.mp h2).2
  | exn =>
    refine ⟨rfl, rfl, fun hr => ?_⟩
    have h2 : r ∈ allRecommendations.filter (fun x => x.category = cat) := hr
    simpa using (List.mem_filter.mp h2).2

def wStudyRec : CampusRecommendation :=
  { id := "8", name := "Academic Plaza", category := "study",
    description := "Outdoor study spaces and tutoring centers",
    location := "Central Campus", distance := "Central", rating := 45 / 10,
    whyRecommended := "Great for group study and tutoring" }

theorem C10_recommendations_fallback_witness :
    getCampusRecommendations (some "study") FetchOutcome.exn =
      getDefaultRecommendations (some "study") ∧
    wStudyRec.category = "study" :=
  ⟨(C10_recommendations_fallback "study" FetchOutcome.exn wStudyRec
      (fun recs h => nomatch h)).1,
   (C10_recommendations_fallback "study" FetchOutcome.exn wStudyRec
      (fun recs h => nomatch h)).2.2
     (by simp [getCampusRecommendations, getDefaultRecommendations,
       allRecommendations, wStudyRec])⟩
